import Mathlib

/-
Verification development for the archie-backend repository.

The repository persists conversations made of messages (SQLAlchemy over a
relational store, src/database.py + src/app/backend.py), exposes a small HTTP
surface (src/endpoints.py, src/api_controller.py) and a markdown/html
plain-text normalizer (src/utils.py).  This file gives a shallow embedding of
those components and proves/refutes the frozen claims about them.

Modelling conventions:
 - timestamps (datetime) are modelled as Nat; `datetime.now(timezone.utc)` is
   passed in as an explicit `now` parameter;
 - `uuid.uuid4()` results are passed in as explicit string parameters;
 - SQL float columns are modelled as Rat;
 - Python truthiness of an optional string (None and "" are falsy) is
   modelled explicitly where the source relies on it;
 - the relational store is a pair of lists of rows; the column constraints
   declared in src/database.py (NOT NULL and the foreign key on
   ai_assistant_message.conversation_id — the deployment schema is Postgres,
   see the JSONB columns and the alembic revisions) are checked at commit
   time by `msgRowOk`.
-/

namespace Archie

/-! ### Text normalizer (src/utils.py)

Each `re.sub(pattern, repl, text)` call of `clean_markdown_to_plain` is
embedded as one scan over the character list (`applySubFuel` below) together
with a matcher that recognises exactly the strings the corresponding Python
regex matches at a position (left-most, non-overlapping, greedy — for every
pattern used in the source, greedy matching of the character classes involved
coincides with taking maximal runs, since each class excludes the character
that must follow it). -/

/-- Characters matched by the regex class \s and stripped by str.strip
(ASCII part; the unicode whitespace beyond ASCII is not modelled). -/
def isPySpace (c : Char) : Bool :=
  c == ' ' || c == '\t' || c == '\n' || c == '\r' || c == Char.ofNat 11 || c == Char.ofNat 12

/-- ASCII digits, for the regex class \d. -/
def isAsciiDigit (c : Char) : Bool :=
  '0' ≤ c && c ≤ '9'

/-- The backquote character, U+0060. -/
def btick : Char := Char.ofNat 96

/-- Lowercase ASCII letters (used to characterise inputs free of markdown
markup in the statements about fenced/inline code). -/
def isLowerAZ (c : Char) : Bool :=
  'a' ≤ c && c ≤ 'z'

/-- Lowercase ASCII letters and the backquote. -/
def letterOrTick (c : Char) : Bool :=
  isLowerAZ c || c == btick

/-- One `re.sub` pass over the original character list: at each position the
matcher is tried on the remaining suffix; on success its replacement is
emitted and scanning resumes after the matched text, otherwise one character
is copied.  The Bool tracks whether the position is at the start of a line
(for ^-anchored patterns under re.MULTILINE; re.sub matches on the original
string, so the flag is derived from the consumed original characters).  A
successful match always consumes at least one character, so fuel equal to the
length of the list suffices. -/
def applySubFuel (f : Bool → List Char → Option (List Char × List Char × Bool)) :
    Nat → Bool → List Char → List Char
  | _, _, [] => []
  | 0, _, l => l
  | n + 1, b, c :: cs =>
    match f b (c :: cs) with
    | some (rep, rest, b') => rep ++ applySubFuel f n b' rest
    | none => c :: applySubFuel f n (c == '\n') cs

/-- Run one substitution pass over a whole list (position 0 is a line start). -/
def runSub (f : Bool → List Char → Option (List Char × List Char × Bool))
    (l : List Char) : List Char :=
  applySubFuel f l.length true l

/-- Matcher for `^#{1,6}\s+` (MULTILINE): at a line start, one to six hash
marks followed by at least one whitespace character; replaced by nothing. -/
def subHeading (b : Bool) (l : List Char) : Option (List Char × List Char × Bool) :=
  if b then
    let hs := l.takeWhile (fun x => x == '#')
    if hs ≠ [] ∧ hs.length ≤ 6 then
      let rest := l.drop hs.length
      let ws := rest.takeWhile isPySpace
      if ws ≠ [] then some ([], rest.drop ws.length, ws.getLast? == some '\n') else none
    else none
  else none

/-- Matcher for `d([^d]+)d` with a one-character delimiter d — the patterns
`\*([^*]+)\*` and `_([^_]+)_`; replaced by the captured content. -/
def subWrap1 (d : Char) (_b : Bool) (l : List Char) :
    Option (List Char × List Char × Bool) :=
  if l.take 1 = [d] then
    let content := (l.drop 1).takeWhile (fun x => x != d)
    let after := (l.drop 1).drop content.length
    if content ≠ [] ∧ after.take 1 = [d] then
      some (content, after.drop 1, d == '\n')
    else none
  else none

/-- Matcher for `dd([^d]+)dd` — the patterns `\*\*([^*]+)\*\*` and
`__([^_]+)__`; replaced by the captured content. -/
def subWrap2 (d : Char) (_b : Bool) (l : List Char) :
    Option (List Char × List Char × Bool) :=
  if l.take 2 = [d, d] then
    let content := (l.drop 2).takeWhile (fun x => x != d)
    let after := (l.drop 2).drop content.length
    if content ≠ [] ∧ after.take 2 = [d, d] then
      some (content, after.drop 2, d == '\n')
    else none
  else none

/-- Matcher for `\[([^\]]+)\]\([^\)]+\)` — markdown links, replaced by the
link text. -/
def subLink (_b : Bool) (l : List Char) : Option (List Char × List Char × Bool) :=
  if l.take 1 = ['['] then
    let t := (l.drop 1).takeWhile (fun x => x != ']')
    let r1 := (l.drop 1).drop t.length
    if t ≠ [] ∧ r1.take 2 = [']', '('] then
      let u := (r1.drop 2).takeWhile (fun x => x != ')')
      let r2 := (r1.drop 2).drop u.length
      if u ≠ [] ∧ r2.take 1 = [')'] then some (t, r2.drop 1, false) else none
    else none
  else none

/-- Matcher for `<([^>]+)>` — autolinks, replaced by the inner text. -/
def subAutolink (_b : Bool) (l : List Char) : Option (List Char × List Char × Bool) :=
  if l.take 1 = ['<'] then
    let t := (l.drop 1).takeWhile (fun x => x != '>')
    let r1 := (l.drop 1).drop t.length
    if t ≠ [] ∧ r1.take 1 = ['>'] then some (t, r1.drop 1, false) else none
  else none

/-- Matcher for `!\[[^\]]*\]\([^\)]+\)` — images, replaced by nothing. -/
def subImage (_b : Bool) (l : List Char) : Option (List Char × List Char × Bool) :=
  if l.take 2 = ['!', '['] then
    let t := (l.drop 2).takeWhile (fun x => x != ']')
    let r1 := (l.drop 2).drop t.length
    if r1.take 2 = [']', '('] then
      let u := (r1.drop 2).takeWhile (fun x => x != ')')
      let r2 := (r1.drop 2).drop u.length
      if u ≠ [] ∧ r2.take 1 = [')'] then some ([], r2.drop 1, false) else none
    else none
  else none

/-- Matcher for the fenced-code pattern (three backquotes, any run of
non-backquote characters, three backquotes; re.DOTALL is redundant since the
negated class already matches newlines); replaced by NOTHING — the content is
dropped together with the delimiters. -/
def subFence (_b : Bool) (l : List Char) : Option (List Char × List Char × Bool) :=
  if l.take 3 = [btick, btick, btick] then
    let content := (l.drop 3).takeWhile (fun x => x != btick)
    let after := (l.drop 3).drop content.length
    if after.take 3 = [btick, btick, btick] then
      some ([], after.drop 3, false)
    else none
  else none

/-- Matcher for inline code (backquote, non-empty run of non-backquote
characters, backquote); replaced by the inner text. -/
def subInlineCode (_b : Bool) (l : List Char) : Option (List Char × List Char × Bool) :=
  if l.take 1 = [btick] then
    let content := (l.drop 1).takeWhile (fun x => x != btick)
    let after := (l.drop 1).drop content.length
    if content ≠ [] ∧ after.take 1 = [btick] then
      some (content, after.drop 1, false)
    else none
  else none

/-- Matcher for `^d{3,}$` (MULTILINE) with d the rule character — horizontal
rules; the run is replaced by nothing, the line break itself is kept. -/
def subHr (d : Char) (b : Bool) (l : List Char) : Option (List Char × List Char × Bool) :=
  if b then
    let run := l.takeWhile (fun x => x == d)
    if 3 ≤ run.length then
      let rest := l.drop run.length
      if rest.take 1 = [] ∨ rest.take 1 = ['\n'] then some ([], rest, false) else none
    else none
  else none

/-- Matcher for `^>\s*` (MULTILINE) — blockquote markers. -/
def subBlockquote (b : Bool) (l : List Char) : Option (List Char × List Char × Bool) :=
  if b ∧ l.take 1 = ['>'] then
    let ws := (l.drop 1).takeWhile isPySpace
    some ([], (l.drop 1).drop ws.length, ws.getLast? == some '\n')
  else none

/-- Matcher for `^[\s]*[-*+]\s+` (MULTILINE) — unordered-list markers. -/
def subUList (b : Bool) (l : List Char) : Option (List Char × List Char × Bool) :=
  if b then
    let ws1 := l.takeWhile isPySpace
    let r1 := l.drop ws1.length
    if r1.take 1 = ['-'] ∨ r1.take 1 = ['*'] ∨ r1.take 1 = ['+'] then
      let ws2 := (r1.drop 1).takeWhile isPySpace
      if ws2 ≠ [] then some ([], (r1.drop 1).drop ws2.length, ws2.getLast? == some '\n')
      else none
    else none
  else none

/-- Matcher for `^[\s]*\d+\.\s+` (MULTILINE) — ordered-list markers. -/
def subOList (b : Bool) (l : List Char) : Option (List Char × List Char × Bool) :=
  if b then
    let ws1 := l.takeWhile isPySpace
    let r1 := l.drop ws1.length
    let ds := r1.takeWhile isAsciiDigit
    if ds ≠ [] ∧ (r1.drop ds.length).take 1 = ['.'] then
      let ws2 := ((r1.drop ds.length).drop 1).takeWhile isPySpace
      if ws2 ≠ [] then
        some ([], ((r1.drop ds.length).drop 1).drop ws2.length, ws2.getLast? == some '\n')
      else none
    else none
  else none

/-- Index of the last newline in a character list, if any. -/
def lastNLIdx (l : List Char) : Option Nat :=
  match l with
  | [] => none
  | c :: cs =>
    match lastNLIdx cs with
    | some j => some (j + 1)
    | none => if c == '\n' then some 0 else none

/-- Matcher for `\n\s*\n` (replaced by two newlines): a newline, then — by
greedy matching with backtracking — the whitespace run up to and including its
last newline. -/
def subBlankLines (_b : Bool) (l : List Char) : Option (List Char × List Char × Bool) :=
  if l.take 1 = ['\n'] then
    let w := (l.drop 1).takeWhile isPySpace
    match lastNLIdx w with
    | some j => some (['\n', '\n'], (l.drop 1).drop (j + 1), true)
    | none => none
  else none

/-- Matcher for `\s+` (replaced by a single space). -/
def subWsCollapse (_b : Bool) (l : List Char) : Option (List Char × List Char × Bool) :=
  let run := l.takeWhile isPySpace
  if run ≠ [] then some ([' '], l.drop run.length, run.getLast? == some '\n') else none

/-- Python str.strip(): whitespace removed from both ends. -/
def pyStrip (l : List Char) : List Char :=
  ((l.dropWhile isPySpace).reverse.dropWhile isPySpace).reverse

/-- src/utils.py `clean_markdown_to_plain`, stage by stage in source order,
over a character list. -/
def cleanMarkdownList (l : List Char) : List Char :=
  let t1 := runSub subHeading l
  let t2 := runSub (subWrap2 '*') t1
  let t3 := runSub (subWrap1 '*') t2
  let t4 := runSub (subWrap2 '_') t3
  let t5 := runSub (subWrap1 '_') t4
  let t6 := runSub subLink t5
  let t7 := runSub subAutolink t6
  let t8 := runSub subImage t7
  let t9 := runSub subFence t8
  let t10 := runSub subInlineCode t9
  let t11 := runSub (subHr '-') t10
  let t12 := runSub (subHr '*') t11
  let t13 := runSub subBlockquote t12
  let t14 := runSub subUList t13
  let t15 := runSub subOList t14
  let t16 := runSub subBlankLines t15
  let t17 := runSub subWsCollapse t16
  pyStrip t17

/-- src/utils.py `clean_markdown_to_plain`. -/
def clean_markdown_to_plain (s : String) : String :=
  ⟨cleanMarkdownList s.data⟩

/-! ### ID generation (src/utils.py) -/

/-- src/utils.py `generate_id_with_timestamp`.  The two sources of
nondeterminism — `datetime.now(timezone.utc).strftime` (a 14-digit string)
and the first 8 characters of `str(uuid.uuid4())` — are passed in as the
parameters `ts` and `uid8`. -/
def generate_id_with_timestamp (pfx ts uid8 : String) : String :=
  pfx ++ "-" ++ ts ++ "-" ++ uid8

/-- src/utils.py `generate_conversation_id`. -/
def generate_conversation_id (ts uid8 : String) : String :=
  generate_id_with_timestamp "conversation" ts uid8

/-- src/utils.py `generate_message_id`. -/
def generate_message_id (ts uid8 : String) : String :=
  generate_id_with_timestamp "message" ts uid8

/-- Hexadecimal digits as produced by str(uuid.uuid4()) (lowercase). -/
def isHexDigitL (c : Char) : Bool :=
  isAsciiDigit c || ('a' ≤ c && c ≤ 'f')

/-- Modelled from the spec: §4.2 — the set of strings the ID generation
contract can produce for a given prefix: prefix, a dash, the 14-digit UTC
timestamp YYYYMMDDHHMMSS, a dash, and 8 hex characters of a random UUID. -/
def matchesIdPattern (pfx s : String) : Prop :=
  ∃ ts uid8 : String, s = generate_id_with_timestamp pfx ts uid8 ∧
    ts.length = 14 ∧ ts.data.all isAsciiDigit = true ∧
    uid8.length = 8 ∧ uid8.data.all isHexDigitL = true

/-! ### Data model

The pydantic classes `ChatMessage`, `ConversationModel` and `LllmTrace` used
by src/app/backend.py are imported from the external package
`archie_shared.chat.models`, which is not part of this repository's source
tree; they are modelled from the spec (§3) below.  `role` and `text_format`
are Literal-typed in pydantic, so construction already enforces the enums;
they are modelled as inductive types. -/

/-- Message sender roles (§3: enum of user, assistant, system). -/
inductive Role
  | user
  | assistant
  | system
  deriving DecidableEq, Repr

/-- Message text formats (§3: enum of plain, markdown, html, voice). -/
inductive TextFormat
  | plain
  | markdown
  | html
  | voice
  deriving DecidableEq, Repr

/-- Free-form metadata mapping (§3: optional key/value mapping, serialized
opaquely); the json.dumps/json.loads pair is inverse on such mappings, so the
stored serialized form is modelled by the mapping itself. -/
abbrev Metadata := List (String × String)

/-- Modelled from the spec: §3 UsageTrace / the `input_tokens_details`
object accessed in app/backend.py (`input_cached_tokens`). -/
structure LlmInputTokensDetails where
  cached_tokens : Int
  deriving DecidableEq, Repr

/-- Modelled from the spec: §3 UsageTrace / the `output_tokens_details`
object accessed in app/backend.py (`output_reasoning_tokens`). -/
structure LlmOutputTokensDetails where
  reasoning_tokens : Int
  deriving DecidableEq, Repr

/-- Modelled from the spec: §3 UsageTrace — the `LllmTrace` pydantic class of
the external `archie_shared.chat.models` module; fields follow §3 and the
attribute accesses in app/backend.py. -/
structure LllmTrace where
  model : String
  input_tokens : Int
  output_tokens : Int
  total_tokens : Int
  input_tokens_details : Option LlmInputTokensDetails
  output_tokens_details : Option LlmOutputTokensDetails
  total_cost : Rat
  deriving DecidableEq, Repr

/-- Modelled from the spec: §3 Message — the `ChatMessage` pydantic class of
the external `archie_shared.chat.models` module; fields follow §3 and the
attribute accesses in app/backend.py. -/
structure ChatMessage where
  message_id : Option String
  conversation_id : Option String
  role : Role
  text : String
  text_format : TextFormat
  metadata : Option Metadata
  created_at : Nat
  previous_message_id : Option String
  model : Option String
  llm_trace : Option LllmTrace
  deriving DecidableEq, Repr

/-- Modelled from the spec: §3 Conversation — the `ConversationModel`
pydantic class of the external `archie_shared.chat.models` module; fields
follow §3 and the attribute accesses in app/backend.py. -/
structure ConversationModel where
  conversation_id : String
  title : String
  messages : Option (List ChatMessage)
  created_at : Nat
  updated_at : Nat
  total_input_tokens : Int
  total_output_tokens : Int
  total_tokens : Int
  total_cost : Rat
  deriving DecidableEq, Repr

/-! ### Relational rows and state (src/database.py) -/

/-- A row of the ai_assistant_conversation table (src/database.py,
class Conversation). -/
structure ConvRow where
  conversation_id : String
  title : String
  created_at : Nat
  updated_at : Nat
  total_input_tokens : Int
  total_input_cached_tokens : Int
  total_output_tokens : Int
  total_output_reasoning_tokens : Int
  total_tokens : Int
  total_cost : Rat
  deriving DecidableEq, Repr

/-- A row of the ai_assistant_message table (src/database.py, class Message).
The conversation_id column is declared NOT NULL, but the Python code can
attempt to write None into it, so the attempted value is an Option checked at
commit time (`msgRowOk`).  role and text_format are stored as their literal
string values; the stored JSON blobs (metadata_json, llm_trace) are modelled
by their parsed values, the dumps/loads pair being inverse. -/
structure MsgRow where
  message_id : String
  conversation_id : Option String
  role : Role
  text_format : TextFormat
  text : String
  metadata_json : Option Metadata
  created_at : Nat
  previous_message_id : Option String
  model : Option String
  llm_model : Option String
  llm_trace : Option LllmTrace
  input_tokens : Int
  input_cached_tokens : Int
  output_tokens : Int
  output_reasoning_tokens : Int
  total_tokens : Int
  total_cost : Rat
  deriving DecidableEq, Repr

/-- The relational store: the two tables as lists of rows (insertion order). -/
structure DbState where
  conversations : List ConvRow
  messages : List MsgRow
  deriving DecidableEq, Repr

/-- Lookup of a conversation row by primary key (`.filter(...).first()` /
`session.get`). -/
def findConv? (convs : List ConvRow) (cid : String) : Option ConvRow :=
  convs.find? (fun r => r.conversation_id == cid)

/-- Lookup of a message row by primary key. -/
def findMsg? (msgs : List MsgRow) (mid : String) : Option MsgRow :=
  msgs.find? (fun r => r.message_id == mid)

/-- Python truthiness of an optional string: None and "" are falsy. -/
def pyTruthy : Option String → Bool
  | none => false
  | some s => s != ""

/-- The constraints declared on ai_assistant_message.conversation_id in
src/database.py (NOT NULL and the foreign key to ai_assistant_conversation),
checked when a written row is committed; the deployed schema (Postgres, per
the JSONB columns and alembic revisions) enforces both. -/
def msgRowOk (convs : List ConvRow) (r : MsgRow) : Bool :=
  match r.conversation_id with
  | some c => (findConv? convs c).isSome
  | none => false

/-- Errors surfaced by a failed commit (IntegrityError and kin). -/
inductive DbError
  | integrity
  deriving DecidableEq, Repr

/-- Errors raised by create_conversation (the ValueError on a duplicate id,
i.e. the spec's ConflictError). -/
inductive CreateError
  | conflict
  deriving DecidableEq, Repr

/-! ### Storage engine (src/app/backend.py, class ChatDatabase) -/

/-- app/backend.py `ChatDatabase._create_db_message_from_chat_message`.
`u` stands for the str(uuid.uuid4()) fallback used when message_id is falsy.
The metadata conditional: a dict has no model_dump attribute, so a truthy
dict is dumped and None / the empty dict store NULL. -/
def _create_db_message_from_chat_message (u : String) (m : ChatMessage) : MsgRow :=
  { message_id := match m.message_id with
      | some i => if i != "" then i else u
      | none => u
    conversation_id := m.conversation_id
    role := m.role
    text_format := m.text_format
    text := m.text
    metadata_json := match m.metadata with
      | some md => if md.isEmpty then none else some md
      | none => none
    created_at := m.created_at
    previous_message_id := m.previous_message_id
    model := m.model
    llm_model := m.llm_trace.map (fun t => t.model)
    llm_trace := m.llm_trace
    input_tokens := match m.llm_trace with
      | some t => t.input_tokens
      | none => 0
    input_cached_tokens := match m.llm_trace with
      | some t => match t.input_tokens_details with
        | some d => d.cached_tokens
        | none => 0
      | none => 0
    output_tokens := match m.llm_trace with
      | some t => t.output_tokens
      | none => 0
    output_reasoning_tokens := match m.llm_trace with
      | some t => match t.output_tokens_details with
        | some d => d.reasoning_tokens
        | none => 0
      | none => 0
    total_tokens := match m.llm_trace with
      | some t => t.total_tokens
      | none => 0
    total_cost := match m.llm_trace with
      | some t => t.total_cost
      | none => 0 }

/-- app/backend.py `ChatDatabase._update_db_message_from_chat_message`:
every column except the primary key is overwritten. -/
def _update_db_message_from_chat_message (old : MsgRow) (m : ChatMessage) : MsgRow :=
  { old with
    conversation_id := m.conversation_id
    role := m.role
    text_format := m.text_format
    text := m.text
    metadata_json := match m.metadata with
      | some md => if md.isEmpty then none else some md
      | none => none
    created_at := m.created_at
    previous_message_id := m.previous_message_id
    model := m.model
    llm_model := m.llm_trace.map (fun t => t.model)
    llm_trace := m.llm_trace
    input_tokens := match m.llm_trace with
      | some t => t.input_tokens
      | none => 0
    input_cached_tokens := match m.llm_trace with
      | some t => match t.input_tokens_details with
        | some d => d.cached_tokens
        | none => 0
      | none => 0
    output_tokens := match m.llm_trace with
      | some t => t.output_tokens
      | none => 0
    output_reasoning_tokens := match m.llm_trace with
      | some t => match t.output_tokens_details with
        | some d => d.reasoning_tokens
        | none => 0
      | none => 0
    total_tokens := match m.llm_trace with
      | some t => t.total_tokens
      | none => 0
    total_cost := match m.llm_trace with
      | some t => t.total_cost
      | none => 0 }

/-- app/backend.py `ChatDatabase._create_chat_message_from_db_message`.
Note str() around the columns: str(None) on a NULL conversation_id yields the
literal string "None", and a falsy (empty) previous_message_id is mapped to
None.  The stored JSON blobs parse back to the values they were dumped from. -/
def _create_chat_message_from_db_message (r : MsgRow) : ChatMessage :=
  { message_id := some r.message_id
    conversation_id := some (match r.conversation_id with
      | some c => c
      | none => "None")
    role := r.role
    text_format := r.text_format
    text := r.text
    metadata := r.metadata_json
    created_at := r.created_at
    previous_message_id := match r.previous_message_id with
      | some p => if p != "" then some p else none
      | none => none
    model := r.model
    llm_trace := r.llm_trace }

/-- app/backend.py `ChatDatabase._ensure_conversation_exists` (its own
session, committed before the caller's message write); both now() calls are
modelled by the single parameter `now`. -/
def _ensure_conversation_exists (now : Nat) (cid : String) (s : DbState) : DbState :=
  match findConv? s.conversations cid with
  | some _ => s
  | none =>
    { s with conversations := s.conversations ++
        [{ conversation_id := cid
           title := "New Conversation"
           created_at := now
           updated_at := now
           total_input_tokens := 0
           total_input_cached_tokens := 0
           total_output_tokens := 0
           total_output_reasoning_tokens := 0
           total_tokens := 0
           total_cost := 0 }] }

/-- The shared upsert-by-message_id step of save_message and
save_conversation: session.get by primary key, then update in place or add.
session.get with a None identifier finds nothing.  Returns the new table and
the row that was written. -/
def upsertMessage (u : String) (m : ChatMessage) (msgs : List MsgRow) :
    List MsgRow × MsgRow :=
  match m.message_id with
  | some mid =>
    match findMsg? msgs mid with
    | some old =>
      let newRow := _update_db_message_from_chat_message old m
      (msgs.map (fun r => if r.message_id == mid then newRow else r), newRow)
    | none =>
      let row := _create_db_message_from_chat_message u m
      (msgs ++ [row], row)
  | none =>
    let row := _create_db_message_from_chat_message u m
    (msgs ++ [row], row)

/-- app/backend.py `ChatDatabase.save_message`: ensure the parent
conversation exists when the message carries a truthy conversation_id, then
upsert the message by id; the commit enforces the column constraints
(`msgRowOk`), and a failed commit leaves the message table unchanged (the
conversation auto-created by the separately committed
_ensure_conversation_exists persists). -/
def save_message (u : String) (now : Nat) (m : ChatMessage) (s : DbState) :
    DbState × Except DbError Unit :=
  let s1 := match m.conversation_id with
    | some c => if c != "" then _ensure_conversation_exists now c s else s
    | none => s
  let res := upsertMessage u m s1.messages
  if msgRowOk s1.conversations res.2 then
    ({ s1 with messages := res.1 }, Except.ok ())
  else
    (s1, Except.error DbError.integrity)

/-- The conversation-row upsert performed by save_conversation: the update
branch overwrites title, both timestamps and the four usage totals of the
existing row (never its primary key); the insert branch adds a fresh row
(the two columns the code does not set take their schema default 0). -/
def upsertConvRow (c : ConversationModel) (convs : List ConvRow) : List ConvRow :=
  match findConv? convs c.conversation_id with
  | some _ => convs.map (fun r =>
      if r.conversation_id == c.conversation_id then
        { r with
          created_at := c.created_at
          updated_at := c.updated_at
          title := c.title
          total_input_tokens := c.total_input_tokens
          total_output_tokens := c.total_output_tokens
          total_tokens := c.total_tokens
          total_cost := c.total_cost }
      else r)
  | none => convs ++
      [{ conversation_id := c.conversation_id
         title := c.title
         created_at := c.created_at
         updated_at := c.updated_at
         total_input_tokens := c.total_input_tokens
         total_input_cached_tokens := 0
         total_output_tokens := c.total_output_tokens
         total_output_reasoning_tokens := 0
         total_tokens := c.total_tokens
         total_cost := c.total_cost }]

/-- app/backend.py `ChatDatabase.save_conversation`: upsert the conversation
row, then (when the messages list is truthy) upsert every contained message
with its conversation_id forced to the conversation's, all in one commit.
`us` supplies the uuid4 fallback for the i-th contained message.  Every row
written here satisfies the column constraints (the parent row is part of the
same commit), so no error case arises. -/
def save_conversation (us : Nat → String) (c : ConversationModel) (s : DbState) :
    DbState :=
  match c.messages with
  | some msgs =>
    if msgs.isEmpty then { s with conversations := upsertConvRow c s.conversations }
    else msgs.enum.foldl
      (fun st im =>
        { st with messages :=
            (upsertMessage (us im.1) { im.2 with conversation_id := some c.conversation_id }
              st.messages).1 })
      { s with conversations := upsertConvRow c s.conversations }
  | none => { s with conversations := upsertConvRow c s.conversations }

/-- app/backend.py `ChatDatabase.get_conversation_history`: the messages of
one conversation ordered by created_at (ascending or descending per the
flag — the SQL sort is modelled by insertion sort on the key) and converted
back to ChatMessage. -/
def get_conversation_history (cid : String) (order_desc : Bool) (s : DbState) :
    List ChatMessage :=
  let rows := s.messages.filter (fun r => r.conversation_id == some cid)
  let sorted := if order_desc then
      List.insertionSort (fun a b : MsgRow => b.created_at ≤ a.created_at) rows
    else
      List.insertionSort (fun a b : MsgRow => a.created_at ≤ b.created_at) rows
  sorted.map _create_chat_message_from_db_message

/-- app/backend.py `ChatDatabase.get_conversation_with_messages`: None when
the conversation row is absent, otherwise the conversation with its messages
newest-first. -/
def get_conversation_with_messages (cid : String) (s : DbState) :
    Option ConversationModel :=
  match findConv? s.conversations cid with
  | none => none
  | some r => some
      { conversation_id := r.conversation_id
        title := r.title
        messages := some (get_conversation_history cid true s)
        created_at := r.created_at
        updated_at := r.updated_at
        total_input_tokens := r.total_input_tokens
        total_output_tokens := r.total_output_tokens
        total_tokens := r.total_tokens
        total_cost := r.total_cost }

/-- The conversation id create_conversation actually uses: a falsy (absent
or empty) id is replaced by str(uuid.uuid4()) — the parameter `u`. -/
def effectiveConvId (u : String) (id? : Option String) : String :=
  match id? with
  | some c => if c != "" then c else u
  | none => u

/-- The body of create_conversation for the id it settled on: an existing id
raises the duplicate-id ValueError (the conflict) after which the rollback
leaves the store untouched; otherwise the new row is inserted with
created_at = updated_at = now and all usage totals zero. -/
def create_conversation_with (cid : String) (now : Nat)
    (title : String) (s : DbState) : DbState × Except CreateError ConversationModel :=
  match findConv? s.conversations cid with
  | some _ => (s, Except.error CreateError.conflict)
  | none =>
    ({ s with conversations := s.conversations ++
        [{ conversation_id := cid
           title := title
           created_at := now
           updated_at := now
           total_input_tokens := 0
           total_input_cached_tokens := 0
           total_output_tokens := 0
           total_output_reasoning_tokens := 0
           total_tokens := 0
           total_cost := 0 }] },
     Except.ok
       { conversation_id := cid
         title := title
         messages := some []
         created_at := now
         updated_at := now
         total_input_tokens := 0
         total_output_tokens := 0
         total_tokens := 0
         total_cost := 0 })

/-- app/backend.py `ChatDatabase.create_conversation`. -/
def create_conversation (u : String) (now : Nat) (id? : Option String)
    (title : String) (s : DbState) : DbState × Except CreateError ConversationModel :=
  create_conversation_with (effectiveConvId u id?) now title s

/-- app/backend.py `ChatDatabase.delete_conversation`: delete the messages of
the conversation first, then its row; total, no error on an absent id.  SQL
equality never matches a NULL conversation_id, so such rows are kept. -/
def delete_conversation (cid : String) (s : DbState) : DbState :=
  { conversations := s.conversations.filter (fun r => !(r.conversation_id == cid))
    messages := s.messages.filter (fun r => !(r.conversation_id == some cid)) }

/-! ### Request orchestrator (src/endpoints.py `create_message`;
src/api_controller.py `ApiController.create_new_message` is line-for-line the
same flow) -/

/-- Request body of POST /messages (src/app/models.py MessageRequest). -/
structure MessageRequest where
  role : Role
  text : String
  text_format : TextFormat
  conversation_id : Option String
  metadata : Option Metadata
  deriving DecidableEq, Repr

/-- Success body of POST /messages (src/app/models.py MessageResponse). -/
structure MessageResponse where
  message_id : String
  conversation_id : String
  created_at : Nat
  deriving DecidableEq, Repr

/-- src/endpoints.py `create_message`: with no (truthy) conversation_id, a
fresh id from generate_conversation_id (`genConvId`) and a new conversation;
with an explicit conversation_id, a lookup that fails with HTTP 404 when the
conversation is absent — no implicit creation.  Then the ChatMessage is
built (message_id from generate_message_id — `genMsgId` —, created_at = now)
and saved; any non-HTTP exception maps to HTTP 500.  The error component
carries the HTTP status code. -/
def create_message (genConvId genMsgId u : String) (now : Nat)
    (req : MessageRequest) (s : DbState) : DbState × Except Nat MessageResponse :=
  let mkAndSave : String → DbState → DbState × Except Nat MessageResponse :=
    fun cid st =>
      let msg : ChatMessage :=
        { message_id := some genMsgId
          role := req.role
          text := req.text
          text_format := req.text_format
          conversation_id := some cid
          metadata := req.metadata
          created_at := now
          previous_message_id := none
          model := none
          llm_trace := none }
      let res := save_message u now msg st
      match res.2 with
      | Except.ok _ =>
        (res.1, Except.ok
          { message_id := genMsgId, conversation_id := cid, created_at := now })
      | Except.error _ => (res.1, Except.error 500)
  let newConv : DbState × Except Nat MessageResponse :=
    match create_conversation u now (some genConvId) "New Conversation" s with
    | (s1, Except.ok _) => mkAndSave genConvId s1
    | (s1, Except.error _) => (s1, Except.error 500)
  match req.conversation_id with
  | some cid0 =>
    if cid0 != "" then
      match get_conversation_with_messages cid0 s with
      | none => (s, Except.error 404)
      | some _ => mkAndSave cid0 s
    else newConv
  | none => newConv

/-! ### Operation alphabet for state invariants -/

/-- One public storage-engine call together with its environment inputs. -/
inductive Op
  | createConv (u : String) (now : Nat) (id? : Option String) (title : String)
  | saveMsg (u : String) (now : Nat) (m : ChatMessage)
  | saveConv (us : Nat → String) (c : ConversationModel)
  | deleteConv (cid : String)

/-- The state reached after one storage-engine call. -/
def stepOp (s : DbState) (op : Op) : DbState :=
  match op with
  | Op.createConv u now id? title => (create_conversation u now id? title s).1
  | Op.saveMsg u now m => (save_message u now m s).1
  | Op.saveConv us c => save_conversation us c s
  | Op.deleteConv cid => delete_conversation cid s

/-- Referential integrity: every stored message row carries a non-NULL
conversation_id that references an existing conversation row. -/
def RefIntegrity (s : DbState) : Prop :=
  ∀ m ∈ s.messages, msgRowOk s.conversations m = true

/-! ### Concrete fixtures used by witnesses and counterexamples -/

/-- The empty store. -/
def emptyDb : DbState := { conversations := [], messages := [] }

/-- A conversation row with id "X", title "T" and timestamps 5. -/
def exConvRow : ConvRow := ⟨"X", "T", 5, 5, 0, 0, 0, 0, 0, 0⟩

/-- A store holding only the conversation "X". -/
def exDb : DbState := { conversations := [exConvRow], messages := [] }

/-- A plain user message "hi" aimed at conversation "X", created at 10. -/
def exMsg : ChatMessage :=
  { message_id := some "m1"
    conversation_id := some "X"
    role := Role.user
    text := "hi"
    text_format := TextFormat.plain
    metadata := none
    created_at := 10
    previous_message_id := none
    model := none
    llm_trace := none }

/-- exMsg with an empty (truthy-falsy) metadata mapping. -/
def c6msg : ChatMessage := { exMsg with metadata := some ([] : Metadata) }

/-- A POST /messages request naming conversation "X". -/
def exReq : MessageRequest :=
  { role := Role.user
    text := "t"
    text_format := TextFormat.plain
    conversation_id := some "X"
    metadata := none }

/-- A stored message row of conversation "X" created at 3. -/
def exRowA : MsgRow :=
  { message_id := "a"
    conversation_id := some "X"
    role := Role.user
    text_format := TextFormat.plain
    text := "1"
    metadata_json := none
    created_at := 3
    previous_message_id := none
    model := none
    llm_model := none
    llm_trace := none
    input_tokens := 0
    input_cached_tokens := 0
    output_tokens := 0
    output_reasoning_tokens := 0
    total_tokens := 0
    total_cost := 0 }

/-- A second stored message row of conversation "X" created at 1. -/
def exRowB : MsgRow := { exRowA with message_id := "b", created_at := 1, text := "2" }

/-- A store with conversation "X" and two messages at distinct times. -/
def exDb2 : DbState := { conversations := [exConvRow], messages := [exRowA, exRowB] }

/-- A conversation model "Z" carrying one message, for save_conversation. -/
def exConvModel : ConversationModel :=
  { conversation_id := "Z"
    title := "tz"
    messages := some [{ exMsg with conversation_id := some "Z", message_id := some "mz" }]
    created_at := 1
    updated_at := 1
    total_input_tokens := 0
    total_output_tokens := 0
    total_tokens := 0
    total_cost := 0 }

/-! ## Theorems -/

/-! ### List helper lemmas -/

theorem find?_append_some {α : Type} {p : α → Bool} {l₁ : List α} (l₂ : List α)
    {r : α} (h : l₁.find? p = some r) : (l₁ ++ l₂).find? p = some r := by
  induction l₁ with
  | nil => simp [List.find?] at h
  | cons a t ih =>
    rw [List.cons_append]
    by_cases ha : p a = true
    · rw [List.find?_cons_of_pos _ ha] at h ⊢
      exact h
    · rw [List.find?_cons_of_neg _ (by simpa using ha)] at h ⊢
      exact ih h

theorem find?_append_none {α : Type} {p : α → Bool} {l₁ : List α} (l₂ : List α)
    (h : l₁.find? p = none) : (l₁ ++ l₂).find? p = l₂.find? p := by
  induction l₁ with
  | nil => simp
  | cons a t ih =>
    rw [List.cons_append]
    by_cases ha : p a = true
    · rw [List.find?_cons_of_pos _ ha] at h
      exact absurd h (by simp)
    · rw [List.find?_cons_of_neg _ (by simpa using ha)] at h ⊢
      exact ih h

theorem find?_map_pres_isSome {α : Type} {p : α → Bool} {g : α → α}
    (hg : ∀ r, p (g r) = p r) (l : List α) :
    ((l.map g).find? p).isSome = (l.find? p).isSome := by
  induction l with
  | nil => simp
  | cons a t ih =>
    by_cases ha : p a = true
    · rw [List.map_cons, List.find?_cons_of_pos _ (by rw [hg]; exact ha),
        List.find?_cons_of_pos _ ha]
      rfl
    · rw [List.map_cons, List.find?_cons_of_neg _ (by rw [hg]; simpa using ha),
        List.find?_cons_of_neg _ (by simpa using ha)]
      exact ih

theorem filter_rev_filter_nil {α : Type} (p : α → Bool) (l : List α) :
    (l.filter (fun a => !(p a))).filter p = [] := by
  induction l with
  | nil => rfl
  | cons a t ih =>
    by_cases ha : p a = true
    · simp [List.filter, ha, ih]
    · have ha' : p a = false := by simpa using ha
      simp [List.filter, ha', ih]

theorem filter_same_filter {α : Type} (p : α → Bool) (l : List α) :
    (l.filter p).filter p = l.filter p := by
  induction l with
  | nil => rfl
  | cons a t ih =>
    by_cases ha : p a = true
    · simp [List.filter, ha, ih]
    · have ha' : p a = false := by simpa using ha
      simp [List.filter, ha', ih]

/-! ### Storage-engine helper lemmas -/

theorem ensure_messages_eq (now : Nat) (cid : String) (s : DbState) :
    (_ensure_conversation_exists now cid s).messages = s.messages := by
  unfold _ensure_conversation_exists
  cases h : findConv? s.conversations cid <;> simp

theorem msgRowOk_append (convs l : List ConvRow) (m : MsgRow)
    (h : msgRowOk convs m = true) : msgRowOk (convs ++ l) m = true := by
  unfold msgRowOk findConv? at h ⊢
  cases hm : m.conversation_id with
  | none => simp [hm] at h
  | some c =>
    simp only [hm] at h ⊢
    obtain ⟨r, hr⟩ := Option.isSome_iff_exists.mp h
    rw [find?_append_some l hr]
    rfl

theorem ensure_msgRowOk (now : Nat) (cid : String) (s : DbState) (m : MsgRow)
    (h : msgRowOk s.conversations m = true) :
    msgRowOk (_ensure_conversation_exists now cid s).conversations m = true := by
  unfold _ensure_conversation_exists
  cases hc : findConv? s.conversations cid with
  | some r => simpa using h
  | none => exact msgRowOk_append _ _ _ h

theorem ensure_self_found (now : Nat) (cid : String) (s : DbState) :
    (findConv? (_ensure_conversation_exists now cid s).conversations cid).isSome = true := by
  unfold _ensure_conversation_exists
  cases hc : findConv? s.conversations cid with
  | some r => simp [hc]
  | none =>
    simp only
    unfold findConv? at hc ⊢
    rw [find?_append_none _ hc]
    simp [List.find?]

theorem save_message_eq_some (u : String) (now : Nat) (m : ChatMessage) (s : DbState)
    (cid : String) (hm : m.conversation_id = some cid) (hc : cid ≠ "") :
    save_message u now m s =
      (if msgRowOk (_ensure_conversation_exists now cid s).conversations
            (upsertMessage u m (_ensure_conversation_exists now cid s).messages).2 then
        ({ _ensure_conversation_exists now cid s with
            messages := (upsertMessage u m (_ensure_conversation_exists now cid s).messages).1 },
          Except.ok ())
      else (_ensure_conversation_exists now cid s, Except.error DbError.integrity)) := by
  unfold save_message
  have hb : (cid != "") = true := by simpa [bne_iff_ne] using hc
  simp only [hm, hb, if_true]

theorem save_message_eq_none (u : String) (now : Nat) (m : ChatMessage) (s : DbState)
    (hm : m.conversation_id = none) :
    save_message u now m s =
      (if msgRowOk s.conversations (upsertMessage u m s.messages).2 then
        ({ s with messages := (upsertMessage u m s.messages).1 }, Except.ok ())
      else (s, Except.error DbError.integrity)) := by
  unfold save_message
  simp only [hm]

theorem save_message_eq_empty (u : String) (now : Nat) (m : ChatMessage) (s : DbState)
    (hm : m.conversation_id = some "") :
    save_message u now m s =
      (if msgRowOk s.conversations (upsertMessage u m s.messages).2 then
        ({ s with messages := (upsertMessage u m s.messages).1 }, Except.ok ())
      else (s, Except.error DbError.integrity)) := by
  unfold save_message
  simp only [hm, bne_self_eq_false, Bool.false_eq_true, if_false]

theorem upsert_row_convid (u : String) (m : ChatMessage) (msgs : List MsgRow) :
    (upsertMessage u m msgs).2.conversation_id = m.conversation_id := by
  unfold upsertMessage
  cases hm : m.message_id with
  | none => rfl
  | some mid =>
    simp only
    cases hf : findMsg? msgs mid with
    | none => rfl
    | some old => rfl

theorem upsert_mem_integrity (u : String) (m : ChatMessage) (msgs : List MsgRow)
    (convs : List ConvRow)
    (hold : ∀ r ∈ msgs, msgRowOk convs r = true)
    (hnew : msgRowOk convs (upsertMessage u m msgs).2 = true) :
    ∀ r ∈ (upsertMessage u m msgs).1, msgRowOk convs r = true := by
  intro r hr
  unfold upsertMessage at hr hnew
  cases hm : m.message_id with
  | none =>
    simp only [hm] at hr hnew
    rcases List.mem_append.mp hr with h | h
    · exact hold r h
    · simp at h; subst h; exact hnew
  | some mid =>
    simp only [hm] at hr hnew
    cases hf : findMsg? msgs mid with
    | none =>
      simp only [hf] at hr hnew
      rcases List.mem_append.mp hr with h | h
      · exact hold r h
      · simp at h; subst h; exact hnew
    | some old =>
      simp only [hf] at hr hnew
      obtain ⟨r0, hr0, hre⟩ := List.mem_map.mp hr
      by_cases hid : (r0.message_id == mid) = true
      · rw [if_pos hid] at hre
        subst hre
        exact hnew
      · rw [if_neg hid] at hre
        subst hre
        exact hold r0 hr0

/-! ### C5 — duplicate-id create_conversation conflicts and leaves the store
unchanged -/

/-- C5: in every state holding a conversation with (non-empty — §4.2 requires
caller-supplied ids to be non-empty strings) id X, create_conversation on X
fails with the conflict error and returns the store exactly as it was: the
pre-existing row and all stored messages are untouched. -/
theorem C5_conflict_state_unchanged (s : DbState) (x : String) (hx : x ≠ "")
    (hex : (findConv? s.conversations x).isSome = true)
    (u : String) (now : Nat) (title : String) :
    create_conversation u now (some x) title s = (s, Except.error CreateError.conflict) := by
  unfold create_conversation effectiveConvId create_conversation_with
  have hxb : (x != "") = true := by simpa [bne_iff_ne] using hx
  obtain ⟨r, hr⟩ := Option.isSome_iff_exists.mp hex
  simp [hxb, hr]

/-- C5 witness: the conflict at the concrete store exDb. -/
theorem C5_witness :
    create_conversation "u" 3 (some "X") "T2" exDb = (exDb, Except.error CreateError.conflict) :=
  C5_conflict_state_unchanged exDb "X" (by decide) (by decide) "u" 3 "T2"

/-! ### C8 — delete_conversation removes the conversation's data, leaves an
empty history, and re-deleting is an error-free no-op -/

/-- C8: deleting a conversation removes every message with that
conversation_id and the conversation row; a subsequent history read returns
the empty sequence; and deleting again yields the same state (the operation
is total — deleting an absent id is not an error). -/
theorem C8_delete_history_idempotent (s : DbState) (cid : String) :
    get_conversation_history cid false (delete_conversation cid s) = [] ∧
    delete_conversation cid (delete_conversation cid s) = delete_conversation cid s ∧
    (∀ r ∈ (delete_conversation cid s).messages, r.conversation_id ≠ some cid) ∧
    (∀ r ∈ (delete_conversation cid s).conversations, r.conversation_id ≠ cid) := by
  refine ⟨?_, ?_, ?_, ?_⟩
  · unfold get_conversation_history delete_conversation
    simp only
    rw [filter_rev_filter_nil]
    rfl
  · unfold delete_conversation
    simp only
    rw [filter_same_filter, filter_same_filter]
  · intro r hr
    unfold delete_conversation at hr
    simp only at hr
    have := (List.mem_filter.mp hr).2
    simpa using this
  · intro r hr
    unfold delete_conversation at hr
    simp only at hr
    have := (List.mem_filter.mp hr).2
    simpa using this

/-! ### C10 — frame property of delete_conversation -/

/-- C10: delete_conversation X keeps every conversation row with another id
and every message row with another (or NULL) conversation_id exactly as it
was, and introduces nothing else: the surviving rows are precisely the
original rows not belonging to X. -/
theorem C10_delete_frame (s : DbState) (x : String) :
    (∀ r ∈ s.conversations, r.conversation_id ≠ x →
        r ∈ (delete_conversation x s).conversations) ∧
    (∀ r ∈ (delete_conversation x s).conversations,
        r ∈ s.conversations ∧ r.conversation_id ≠ x) ∧
    (∀ m ∈ s.messages, m.conversation_id ≠ some x →
        m ∈ (delete_conversation x s).messages) ∧
    (∀ m ∈ (delete_conversation x s).messages,
        m ∈ s.messages ∧ m.conversation_id ≠ some x) := by
  refine ⟨?_, ?_, ?_, ?_⟩
  · intro r hr hne
    exact List.mem_filter.mpr ⟨hr, by simpa using hne⟩
  · intro r hr
    have := List.mem_filter.mp hr
    exact ⟨this.1, by simpa using this.2⟩
  · intro m hm hne
    exact List.mem_filter.mpr ⟨hm, by simpa using hne⟩
  · intro m hm
    have := List.mem_filter.mp hm
    exact ⟨this.1, by simpa using this.2⟩

/-! ### C3 — save_message does NOT bump updated_at -/

/-- C3 counterexample: conversation "X" has updated_at 5; a message is added
at time 10 through save_message (which succeeds and stores the message), yet
the conversation row — updated_at included — is exactly as before, so
updated_at is not advanced to the time of the addition. -/
theorem C3_counterexample :
    (save_message "u0" 10 exMsg exDb).1.conversations = [exConvRow] ∧
    exConvRow.updated_at = 5 ∧
    ¬(∃ r ∈ (save_message "u0" 10 exMsg exDb).1.conversations,
        r.conversation_id = "X" ∧ 5 < r.updated_at) ∧
    (save_message "u0" 10 exMsg exDb).1.messages ≠ [] := by decide

/-- C3 as amended: adding a message to an existing conversation through
save_message leaves the conversation table — updated_at and every other
field — entirely unchanged (only the message table changes). -/
theorem C3_amended (s : DbState) (u : String) (now : Nat) (m : ChatMessage)
    (cid : String) (hm : m.conversation_id = some cid)
    (hex : (findConv? s.conversations cid).isSome = true) :
    (save_message u now m s).1.conversations = s.conversations := by
  obtain ⟨r, hr⟩ := Option.isSome_iff_exists.mp hex
  by_cases hc : cid = ""
  · subst hc
    rw [save_message_eq_empty u now m s hm]
    cases hok : msgRowOk s.conversations (upsertMessage u m s.messages).2 <;> simp [hok]
  · have hens : _ensure_conversation_exists now cid s = s := by
      unfold _ensure_conversation_exists
      rw [hr]
    rw [save_message_eq_some u now m s cid hm hc, hens]
    cases hok : msgRowOk s.conversations (upsertMessage u m s.messages).2 <;> simp [hok]

/-- C3 amended witness: at the concrete store exDb. -/
theorem C3_amended_witness :
    (save_message "u0" 10 exMsg exDb).1.conversations = exDb.conversations :=
  C3_amended exDb "u0" 10 exMsg "X" (by decide) (by decide)

/-! ### C1 — save_message auto-creates, the orchestrated POST /messages
flow 404s -/

theorem head?_append_ne {α : Type} (l₁ l₂ : List α) (h : l₁ ≠ []) :
    (l₁ ++ l₂).head? = l₁.head? := by
  cases l₁ with
  | nil => exact absurd rfl h
  | cons a t => rfl

/-- C1: for a store without conversation cid (cid a non-empty id, per §4.2),
save_message on a fresh message aimed at cid first auto-creates the
conversation row with title "New Conversation" and all usage totals zero, and
then inserts the message row, succeeding; whereas the orchestrated
POST /messages flow given the same unknown cid answers HTTP 404 and returns
the store exactly as it was — no conversation and no message is created. -/
theorem C1_autocreate_vs_404 (s : DbState) (cid : String) (hcid : cid ≠ "")
    (habs : findConv? s.conversations cid = none)
    (u genC genM : String) (now now2 : Nat) (m : ChatMessage)
    (hm : m.conversation_id = some cid)
    (mid : String) (hmid : m.message_id = some mid)
    (hfresh : findMsg? s.messages mid = none)
    (req : MessageRequest) (hreq : req.conversation_id = some cid) :
    save_message u now m s =
      ({ conversations := s.conversations ++
          [⟨cid, "New Conversation", now, now, 0, 0, 0, 0, 0, 0⟩]
         messages := s.messages ++ [_create_db_message_from_chat_message u m] },
       Except.ok ()) ∧
    create_message genC genM u now2 req s = (s, Except.error 404) := by
  have hens : _ensure_conversation_exists now cid s =
      { s with conversations := s.conversations ++
          [⟨cid, "New Conversation", now, now, 0, 0, 0, 0, 0, 0⟩] } := by
    unfold _ensure_conversation_exists
    rw [habs]
  constructor
  · rw [save_message_eq_some u now m s cid hm hcid, hens]
    have hup : upsertMessage u m s.messages =
        (s.messages ++ [_create_db_message_from_chat_message u m],
          _create_db_message_from_chat_message u m) := by
      unfold upsertMessage
      simp only [hmid, hfresh]
    have hok : msgRowOk
        (s.conversations ++ [⟨cid, "New Conversation", now, now, 0, 0, 0, 0, 0, 0⟩])
        (_create_db_message_from_chat_message u m) = true := by
      unfold msgRowOk
      simp only [show (_create_db_message_from_chat_message u m).conversation_id =
            m.conversation_id from rfl, hm]
      unfold findConv?
      rw [find?_append_none _ habs]
      simp [List.find?]
    rw [show ({ s with conversations := s.conversations ++
          [⟨cid, "New Conversation", now, now, 0, 0, 0, 0, 0, 0⟩] } : DbState).messages
        = s.messages from rfl]
    rw [hup, if_pos hok]
  · unfold create_message
    have hb : (cid != "") = true := by simpa [bne_iff_ne] using hcid
    have hg : get_conversation_with_messages cid s = none := by
      unfold get_conversation_with_messages
      rw [habs]
    simp only [hreq, hb, if_true, hg]

/-- C1 witness: the two behaviors at the empty store and conversation id
"X". -/
theorem C1_witness :
    save_message "u0" 10 exMsg emptyDb =
      ({ conversations := [⟨"X", "New Conversation", 10, 10, 0, 0, 0, 0, 0, 0⟩]
         messages := [_create_db_message_from_chat_message "u0" exMsg] },
       Except.ok ()) ∧
    create_message "cg" "mg" "u0" 77 exReq emptyDb = (emptyDb, Except.error 404) := by
  have h := C1_autocreate_vs_404 emptyDb "X" (by decide) (by decide)
    "u0" "cg" "mg" 10 77 exMsg (by decide) "m1" (by decide) (by decide)
    exReq (by decide)
  simpa [emptyDb] using h

/-! ### C4 — create_conversation without an id does NOT use the §4.2
pattern -/

/-- C4 counterexample: create_conversation with no id uses str(uuid.uuid4())
verbatim — here the uuid 123e4567-e89b-42d3-a456-426614174000 — and that id
does not match the §4.2 pattern (it does not even start with the prefix
"conversation"). -/
theorem C4_counterexample :
    ((create_conversation "123e4567-e89b-42d3-a456-426614174000" 7 none
        "New Conversation" emptyDb).2.toOption.map (fun c => c.conversation_id)) =
      some "123e4567-e89b-42d3-a456-426614174000" ∧
    ¬ matchesIdPattern "conversation" "123e4567-e89b-42d3-a456-426614174000" := by
  constructor
  · rfl
  · rintro ⟨ts, u8, heq, h14, hd, h8, hh⟩
    unfold generate_id_with_timestamp at heq
    have h2 := congrArg String.data heq
    simp only [String.data_append, List.append_assoc] at h2
    have h3 := congrArg List.head? h2
    rw [head?_append_ne _ _ (by decide)] at h3
    exact absurd h3 (by decide)

/-- C4 as amended: create_conversation called without an id takes the plain
random UUID string as the conversation id (it does not apply §4.2); the §4.2
pattern is what the orchestrator's generate_conversation_id produces (used by
POST /messages when no conversation_id is given), and those ids do match the
pattern. -/
theorem C4_amended (u : String) (now : Nat) (title : String) (s : DbState)
    (habs : findConv? s.conversations u = none)
    (ts uid8 : String) (hts : ts.length = 14) (htsd : ts.data.all isAsciiDigit = true)
    (hu8 : uid8.length = 8) (hu8h : uid8.data.all isHexDigitL = true) :
    ((create_conversation u now none title s).2.toOption.map
        (fun c => c.conversation_id)) = some u ∧
    matchesIdPattern "conversation" (generate_conversation_id ts uid8) := by
  constructor
  · unfold create_conversation effectiveConvId create_conversation_with
    simp [habs, Except.toOption]
  · exact ⟨ts, uid8, rfl, hts, htsd, hu8, hu8h⟩

/-- C4 amended witness: at the empty store with a concrete uuid and a
concrete timestamp. -/
theorem C4_amended_witness :
    ((create_conversation "123e4567-e89b-42d3-a456-426614174000" 7 none "T"
        emptyDb).2.toOption.map (fun c => c.conversation_id)) =
      some "123e4567-e89b-42d3-a456-426614174000" ∧
    matchesIdPattern "conversation" (generate_conversation_id "20260101120000" "abcd1234") :=
  C4_amended "123e4567-e89b-42d3-a456-426614174000" 7 "T" emptyDb (by decide)
    "20260101120000" "abcd1234" (by decide) (by decide) (by decide) (by decide)

/-! ### C6 — round-trip of a saved message -/

/-- C6 counterexample: a valid message carrying the empty metadata mapping is
saved and re-read by its id through get_conversation_history; the metadata
comes back as None, not as the empty mapping it was saved with (Python
truthiness sends the empty dict to a NULL metadata_json column). -/
theorem C6_counterexample :
    c6msg.metadata = some ([] : Metadata) ∧
    (((get_conversation_history "X" false (save_message "u0" 10 c6msg exDb).1).find?
        (fun x => x.message_id == some "m1")).map (fun x => x.metadata)) = some none ∧
    some ([] : Metadata) ≠ (none : Option Metadata) := by decide

/-- C6 as amended: saving a valid message (non-empty id, §4.2; fresh in the
store) through save_message and re-reading it by its message_id via
get_conversation_history yields identical role, text (untruncated) and
text_format, and identical metadata whenever the metadata is not the empty
mapping — an empty-dict metadata is read back as None. -/
theorem C6_amended (s : DbState) (u : String) (now : Nat) (m : ChatMessage)
    (cid mid : String) (hm : m.conversation_id = some cid) (hcid : cid ≠ "")
    (hmid : m.message_id = some mid) (hmid2 : mid ≠ "")
    (hfresh : findMsg? s.messages mid = none)
    (hmeta : m.metadata ≠ some ([] : Metadata)) :
    ∃ x ∈ get_conversation_history cid false (save_message u now m s).1,
      x.message_id = some mid ∧ x.role = m.role ∧ x.text = m.text ∧
      x.text_format = m.text_format ∧ x.metadata = m.metadata := by
  rw [save_message_eq_some u now m s cid hm hcid]
  have hfresh1 : findMsg? (_ensure_conversation_exists now cid s).messages mid = none := by
    rw [ensure_messages_eq]
    exact hfresh
  have hup : upsertMessage u m (_ensure_conversation_exists now cid s).messages =
      ((_ensure_conversation_exists now cid s).messages ++
        [_create_db_message_from_chat_message u m],
        _create_db_message_from_chat_message u m) := by
    unfold upsertMessage
    simp only [hmid, hfresh1]
  have hok : msgRowOk (_ensure_conversation_exists now cid s).conversations
      (_create_db_message_from_chat_message u m) = true := by
    unfold msgRowOk
    simp only [show (_create_db_message_from_chat_message u m).conversation_id =
          m.conversation_id from rfl, hm]
    exact ensure_self_found now cid s
  rw [hup, if_pos hok]
  unfold get_conversation_history
  refine ⟨_create_chat_message_from_db_message (_create_db_message_from_chat_message u m),
    ?_, ?_, rfl, rfl, rfl, ?_⟩
  · apply List.mem_map_of_mem
    have hperm := List.perm_insertionSort
      (fun a b : MsgRow => a.created_at ≤ b.created_at)
      (((_ensure_conversation_exists now cid s).messages ++
        [_create_db_message_from_chat_message u m]).filter
        (fun r => r.conversation_id == some cid))
    simp only [if_neg (by simp : ¬ (false = true))]
    refine hperm.mem_iff.mpr (List.mem_filter.mpr ⟨List.mem_append_right _ (by simp), ?_⟩)
    rw [show (_create_db_message_from_chat_message u m).conversation_id =
          m.conversation_id from rfl, hm]
    simp
  · rw [show (_create_chat_message_from_db_message
        (_create_db_message_from_chat_message u m)).message_id =
          some (_create_db_message_from_chat_message u m).message_id from rfl]
    rw [show (_create_db_message_from_chat_message u m).message_id =
          (match m.message_id with
            | some i => if i != "" then i else u
            | none => u) from rfl, hmid]
    have : (mid != "") = true := by simpa [bne_iff_ne] using hmid2
    simp [this]
  · rw [show (_create_chat_message_from_db_message
        (_create_db_message_from_chat_message u m)).metadata =
          (_create_db_message_from_chat_message u m).metadata_json from rfl]
    rw [show (_create_db_message_from_chat_message u m).metadata_json =
          (match m.metadata with
            | some md => if md.isEmpty then none else some md
            | none => none) from rfl]
    cases hmd : m.metadata with
    | none => rfl
    | some md =>
      have hne : md ≠ [] := by
        intro h
        exact hmeta (by rw [hmd, h])
      simp [List.isEmpty_eq_false.mpr hne]

/-- C6 amended witness: the round-trip at a concrete store and message. -/
theorem C6_amended_witness :
    ∃ x ∈ get_conversation_history "X" false (save_message "u0" 10 exMsg exDb).1,
      x.message_id = some "m1" ∧ x.role = exMsg.role ∧ x.text = exMsg.text ∧
      x.text_format = exMsg.text_format ∧ x.metadata = exMsg.metadata :=
  C6_amended exDb "u0" 10 exMsg "X" "m1" (by decide) (by decide) (by decide)
    (by decide) (by decide) (by decide)

/-! ### C7 — ascending history reversed equals descending history -/

/-- C7: when the stored messages of a conversation have pairwise distinct
created_at timestamps, the ascending history reversed is exactly the
descending history. -/
theorem C7_history_reverse (s : DbState) (cid : String)
    (hd : (s.messages.filter (fun r => r.conversation_id == some cid)).Pairwise
        (fun a b => a.created_at ≠ b.created_at)) :
    (get_conversation_history cid false s).reverse = get_conversation_history cid true s := by
  unfold get_conversation_history
  simp only [Bool.false_eq_true, if_false, if_true]
  rw [← List.map_reverse]
  congr 1
  have hperm1 := List.perm_insertionSort
    (fun a b : MsgRow => a.created_at ≤ b.created_at)
    (s.messages.filter (fun r => r.conversation_id == some cid))
  have hperm2 := List.perm_insertionSort
    (fun a b : MsgRow => b.created_at ≤ a.created_at)
    (s.messages.filter (fun r => r.conversation_id == some cid))
  have hsymm : ∀ {x y : MsgRow}, x.created_at ≠ y.created_at →
      y.created_at ≠ x.created_at := fun h => h.symm
  have hne1 := (hperm1.pairwise_iff hsymm).mpr hd
  have hne2 := (hperm2.pairwise_iff hsymm).mpr hd
  haveI : IsTotal MsgRow (fun a b : MsgRow => a.created_at ≤ b.created_at) :=
    ⟨fun a b => Nat.le_total _ _⟩
  haveI : IsTrans MsgRow (fun a b : MsgRow => a.created_at ≤ b.created_at) :=
    ⟨fun _ _ _ h1 h2 => Nat.le_trans h1 h2⟩
  haveI : IsTotal MsgRow (fun a b : MsgRow => b.created_at ≤ a.created_at) :=
    ⟨fun a b => Nat.le_total _ _⟩
  haveI : IsTrans MsgRow (fun a b : MsgRow => b.created_at ≤ a.created_at) :=
    ⟨fun _ _ _ h1 h2 => Nat.le_trans h2 h1⟩
  have hs1 := List.sorted_insertionSort
    (fun a b : MsgRow => a.created_at ≤ b.created_at)
    (s.messages.filter (fun r => r.conversation_id == some cid))
  have hs2 := List.sorted_insertionSort
    (fun a b : MsgRow => b.created_at ≤ a.created_at)
    (s.messages.filter (fun r => r.conversation_id == some cid))
  haveI : IsAntisymm MsgRow (fun a b : MsgRow => b.created_at < a.created_at) :=
    ⟨fun _ _ h1 h2 => absurd (Nat.lt_trans h1 h2) (Nat.lt_irrefl _)⟩
  apply List.eq_of_perm_of_sorted
    (r := fun a b : MsgRow => b.created_at < a.created_at)
  · exact ((List.reverse_perm _).trans hperm1).trans hperm2.symm
  · show List.Pairwise _ _
    rw [List.pairwise_reverse]
    exact (hs1.and hne1).imp (fun h => Nat.lt_of_le_of_ne h.1 h.2)
  · exact (hs2.and hne2).imp (fun h => Nat.lt_of_le_of_ne h.1 (Ne.symm h.2))

/-- C7 witness: at a concrete store with two messages at times 3 and 1. -/
theorem C7_witness :
    (exDb2.messages.filter (fun r => r.conversation_id == some "X")).Pairwise
        (fun a b => a.created_at ≠ b.created_at) ∧
    (get_conversation_history "X" false exDb2).reverse =
      get_conversation_history "X" true exDb2 :=
  ⟨by decide, C7_history_reverse exDb2 "X" (by decide)⟩

/-! ### C9 — referential integrity is preserved by every public storage
operation -/

theorem updConv_preserves_id (c : ConversationModel) (r : ConvRow) :
    (if r.conversation_id == c.conversation_id then
      { r with
        created_at := c.created_at
        updated_at := c.updated_at
        title := c.title
        total_input_tokens := c.total_input_tokens
        total_output_tokens := c.total_output_tokens
        total_tokens := c.total_tokens
        total_cost := c.total_cost }
    else r).conversation_id = r.conversation_id := by
  by_cases hb : (r.conversation_id == c.conversation_id) = true
  · rw [if_pos hb]
  · rw [if_neg hb]

theorem upsertConvRow_keeps_found (c : ConversationModel) (convs : List ConvRow)
    (x : String) (h : (findConv? convs x).isSome = true) :
    (findConv? (upsertConvRow c convs) x).isSome = true := by
  unfold upsertConvRow
  cases hf : findConv? convs c.conversation_id with
  | some r =>
    simp only
    unfold findConv? at h ⊢
    rw [find?_map_pres_isSome (fun r0 => by rw [updConv_preserves_id]) convs]
    exact h
  | none =>
    simp only
    obtain ⟨r, hr⟩ := Option.isSome_iff_exists.mp h
    unfold findConv? at hr ⊢
    rw [find?_append_some _ hr]
    rfl

theorem upsertConvRow_self_found (c : ConversationModel) (convs : List ConvRow) :
    (findConv? (upsertConvRow c convs) c.conversation_id).isSome = true := by
  unfold upsertConvRow
  cases hf : findConv? convs c.conversation_id with
  | some r =>
    simp only
    unfold findConv? at hf ⊢
    rw [find?_map_pres_isSome (fun r0 => by rw [updConv_preserves_id]) convs, hf]
    rfl
  | none =>
    simp only
    unfold findConv? at hf ⊢
    rw [find?_append_none _ hf]
    simp [List.find?]

theorem msgRowOk_upsertConvRow (c : ConversationModel) (convs : List ConvRow)
    (m : MsgRow) (h : msgRowOk convs m = true) :
    msgRowOk (upsertConvRow c convs) m = true := by
  unfold msgRowOk at h ⊢
  cases hx : m.conversation_id with
  | none => rw [hx] at h; simp at h
  | some x =>
    simp only [hx] at h ⊢
    exact upsertConvRow_keeps_found c convs x h

theorem create_conversation_integrity (u : String) (now : Nat) (id? : Option String)
    (title : String) (s : DbState) (h : RefIntegrity s) :
    RefIntegrity (create_conversation u now id? title s).1 := by
  unfold create_conversation create_conversation_with
  cases hf : findConv? s.conversations (effectiveConvId u id?) with
  | some r => simp only [hf]; exact h
  | none =>
    simp only [hf]
    intro mm hm2
    exact msgRowOk_append _ _ _ (h mm hm2)

theorem save_message_integrity (u : String) (now : Nat) (m : ChatMessage)
    (s : DbState) (h : RefIntegrity s) : RefIntegrity (save_message u now m s).1 := by
  cases hm : m.conversation_id with
  | none =>
    have hrow : (upsertMessage u m s.messages).2.conversation_id = none := by
      rw [upsert_row_convid]; exact hm
    have hok : ¬ (msgRowOk s.conversations (upsertMessage u m s.messages).2 = true) := by
      unfold msgRowOk
      simp only [hrow]
      simp
    rw [save_message_eq_none u now m s hm, if_neg hok]
    exact h
  | some cval =>
    by_cases hc : cval = ""
    · subst hc
      cases hok : msgRowOk s.conversations (upsertMessage u m s.messages).2 with
      | false =>
        rw [save_message_eq_empty u now m s hm, if_neg (by simp [hok])]
        exact h
      | true =>
        rw [save_message_eq_empty u now m s hm, if_pos hok]
        intro mm hm2
        exact upsert_mem_integrity _ _ _ _ h hok mm hm2
    · have h1 : RefIntegrity (_ensure_conversation_exists now cval s) := by
        intro mm hm2
        rw [ensure_messages_eq] at hm2
        exact ensure_msgRowOk now cval s mm (h mm hm2)
      cases hok : msgRowOk (_ensure_conversation_exists now cval s).conversations
          (upsertMessage u m (_ensure_conversation_exists now cval s).messages).2 with
      | false =>
        rw [save_message_eq_some u now m s cval hm hc, if_neg (by simp [hok])]
        exact h1
      | true =>
        rw [save_message_eq_some u now m s cval hm hc, if_pos hok]
        intro mm hm2
        exact upsert_mem_integrity _ _ _ _ h1 hok mm hm2

theorem save_conversation_fold_integrity (us : Nat → String) (cid : String)
    (convs : List ConvRow) (hself : (findConv? convs cid).isSome = true) :
    ∀ (pairs : List (Nat × ChatMessage)) (st : DbState),
      st.conversations = convs → RefIntegrity st →
      RefIntegrity (pairs.foldl
        (fun st im => { st with messages :=
            (upsertMessage (us im.1) { im.2 with conversation_id := some cid }
              st.messages).1 }) st) ∧
      (pairs.foldl
        (fun st im => { st with messages :=
            (upsertMessage (us im.1) { im.2 with conversation_id := some cid }
              st.messages).1 }) st).conversations = convs := by
  intro pairs
  induction pairs with
  | nil => intro st h1 h2; exact ⟨h2, h1⟩
  | cons p ps ih =>
    intro st h1 h2
    rw [List.foldl_cons]
    apply ih
    · exact h1
    · intro mm hm2
      have hnew : msgRowOk st.conversations
          (upsertMessage (us p.1) { p.2 with conversation_id := some cid }
            st.messages).2 = true := by
        unfold msgRowOk
        rw [upsert_row_convid]
        show (findConv? st.conversations cid).isSome = true
        rw [h1]
        exact hself
      exact upsert_mem_integrity _ _ _ _ h2 hnew mm hm2

theorem save_conversation_integrity (us : Nat → String) (c : ConversationModel)
    (s : DbState) (h : RefIntegrity s) : RefIntegrity (save_conversation us c s) := by
  have hbase : RefIntegrity { s with conversations := upsertConvRow c s.conversations } := by
    intro mm hm2
    exact msgRowOk_upsertConvRow c s.conversations mm (h mm hm2)
  have hself : (findConv? (upsertConvRow c s.conversations) c.conversation_id).isSome = true :=
    upsertConvRow_self_found c s.conversations
  unfold save_conversation
  cases hm : c.messages with
  | none => exact hbase
  | some msgs =>
    simp only
    by_cases he : msgs.isEmpty = true
    · rw [if_pos he]; exact hbase
    · rw [if_neg he]
      exact (save_conversation_fold_integrity us c.conversation_id
        (upsertConvRow c s.conversations) hself msgs.enum _ rfl hbase).1

theorem find?_isSome_of_mem {α : Type} {p : α → Bool} {l : List α} {a : α}
    (hmem : a ∈ l) (hp : p a = true) : (l.find? p).isSome = true := by
  induction l with
  | nil => exact absurd hmem (by simp)
  | cons b t ih =>
    by_cases hb : p b = true
    · rw [List.find?_cons_of_pos _ hb]
      rfl
    · rw [List.find?_cons_of_neg _ (by simpa using hb)]
      rcases List.mem_cons.mp hmem with he | ht
      · subst he
        exact absurd hp hb
      · exact ih ht

theorem delete_conversation_integrity (cid : String) (s : DbState)
    (h : RefIntegrity s) : RefIntegrity (delete_conversation cid s) := by
  intro mm hm2
  unfold delete_conversation at hm2 ⊢
  obtain ⟨hmem, hcond⟩ := List.mem_filter.mp hm2
  have hok := h mm hmem
  unfold msgRowOk at hok ⊢
  cases hx : mm.conversation_id with
  | none => rw [hx] at hok; simp at hok
  | some x =>
    simp only [hx] at hok hcond ⊢
    obtain ⟨r, hr⟩ := Option.isSome_iff_exists.mp hok
    have hrx : r.conversation_id = x := by simpa using List.find?_some hr
    have hxcid : x ≠ cid := by
      intro he
      subst he
      simp at hcond
    unfold findConv? at hr ⊢
    refine find?_isSome_of_mem (List.mem_filter.mpr
      ⟨List.mem_of_find?_eq_some hr, ?_⟩) ?_
    · rw [hrx]
      simpa using hxcid
    · rw [hrx]
      simp

/-- C9: referential integrity is an invariant of the store: starting from any
state satisfying it, every sequence of create_conversation, save_message,
save_conversation and delete_conversation calls preserves it — every stored
message row keeps referencing an existing conversation row (in particular, a
save_message whose message has a None conversation_id fails the NOT NULL
commit constraint and stores nothing, leaving no orphan). -/
theorem C9_referential_integrity (ops : List Op) (s : DbState)
    (h : RefIntegrity s) : RefIntegrity (ops.foldl stepOp s) := by
  induction ops generalizing s with
  | nil => exact h
  | cons op rest ih =>
    rw [List.foldl_cons]
    apply ih
    cases op with
    | createConv u now id? title => exact create_conversation_integrity u now id? title s h
    | saveMsg u now m => exact save_message_integrity u now m s h
    | saveConv us c => exact save_conversation_integrity us c s h
    | deleteConv cid => exact delete_conversation_integrity cid s h

/-! ### C2 — normalizer lemmas: scans that never match are the identity -/

theorem applySubFuel_nil (f : Bool → List Char → Option (List Char × List Char × Bool))
    (n : Nat) (b : Bool) : applySubFuel f n b [] = [] := by
  cases n <;> rfl

theorem applySubFuel_zero (f : Bool → List Char → Option (List Char × List Char × Bool))
    (b : Bool) (l : List Char) : applySubFuel f 0 b l = l := by
  cases l <;> rfl

theorem applySubFuel_cons (f : Bool → List Char → Option (List Char × List Char × Bool))
    (n : Nat) (b : Bool) (c : Char) (cs : List Char) :
    applySubFuel f (n + 1) b (c :: cs) =
      (match f b (c :: cs) with
        | some (rep, rest, b') => rep ++ applySubFuel f n b' rest
        | none => c :: applySubFuel f n (c == '\n') cs) := rfl

theorem applySubFuel_id (f : Bool → List Char → Option (List Char × List Char × Bool))
    (p : Char → Bool) (hf : ∀ b c cs, p c = true → f b (c :: cs) = none) :
    ∀ (n : Nat) (b : Bool) (l : List Char), (∀ c ∈ l, p c = true) →
      applySubFuel f n b l = l := by
  intro n
  induction n with
  | zero => intro b l _; exact applySubFuel_zero f b l
  | succ k ih =>
    intro b l hl
    cases l with
    | nil => rfl
    | cons c cs =>
      rw [applySubFuel_cons, hf b c cs (hl c (List.mem_cons_self c cs))]
      exact congrArg (c :: ·)
        (ih (c == '\n') cs (fun x hx => hl x (List.mem_cons_of_mem c hx)))

theorem runSub_id (f : Bool → List Char → Option (List Char × List Char × Bool))
    (p : Char → Bool) (hf : ∀ b c cs, p c = true → f b (c :: cs) = none)
    (l : List Char) (hl : ∀ c ∈ l, p c = true) : runSub f l = l :=
  applySubFuel_id f p hf l.length true l hl

theorem runSub_nil (f : Bool → List Char → Option (List Char × List Char × Bool)) :
    runSub f [] = [] := rfl

theorem isLowerAZ_ne (c : Char) (h : isLowerAZ c = true) (d : Char)
    (hd : isLowerAZ d = false) : (c == d) = false := by
  apply beq_eq_false_iff_ne.mpr
  intro he
  rw [he] at h
  rw [h] at hd
  simp at hd

theorem letterOrTick_ne (c : Char) (h : letterOrTick c = true) (d : Char)
    (hd : letterOrTick d = false) : (c == d) = false := by
  apply beq_eq_false_iff_ne.mpr
  intro he
  rw [he] at h
  rw [h] at hd
  simp at hd

theorem letterOrTick_ne' (c : Char) (h : letterOrTick c = true) (d : Char)
    (hd : letterOrTick d = false) : c ≠ d :=
  beq_eq_false_iff_ne.mp (letterOrTick_ne c h d hd)

theorem isLowerAZ_letterOrTick (c : Char) (h : isLowerAZ c = true) :
    letterOrTick c = true := by
  unfold letterOrTick
  rw [h]
  rfl

theorem isPySpace_false_of (c : Char) (h : letterOrTick c = true) :
    isPySpace c = false := by
  have h' : isLowerAZ c = true ∨ (c == btick) = true := by
    unfold letterOrTick at h
    simpa using h
  rcases h' with h1 | h1
  · unfold isPySpace
    rw [isLowerAZ_ne c h1 ' ' (by decide), isLowerAZ_ne c h1 '\t' (by decide),
      isLowerAZ_ne c h1 '\n' (by decide), isLowerAZ_ne c h1 '\r' (by decide),
      isLowerAZ_ne c h1 (Char.ofNat 11) (by decide),
      isLowerAZ_ne c h1 (Char.ofNat 12) (by decide)]
    rfl
  · have he : c = btick := eq_of_beq h1
    rw [he]
    decide

theorem isAsciiDigit_false_of_letter (c : Char) (h : isLowerAZ c = true) :
    isAsciiDigit c = false := by
  unfold isLowerAZ at h
  have h2 : 'a' ≤ c ∧ c ≤ 'z' := by simpa using h
  have h9 : ¬ (c ≤ '9') := fun hle => absurd (le_trans h2.1 hle) (by decide)
  unfold isAsciiDigit
  rw [decide_eq_false h9]
  simp

theorem takeWhile_append_of_all {p : Char → Bool} (s t : List Char)
    (hs : ∀ c ∈ s, p c = true) (ht : t.takeWhile p = []) :
    (s ++ t).takeWhile p = s := by
  induction s with
  | nil => simpa using ht
  | cons a s' ih =>
    rw [List.cons_append, List.takeWhile_cons,
      if_pos (hs a (List.mem_cons_self a s'))]
    exact congrArg (a :: ·) (ih (fun c hc => hs c (List.mem_cons_of_mem a hc)))

theorem dropWhile_id_of_head {p : Char → Bool} (l : List Char)
    (h : ∀ c ∈ l, p c = false) : l.dropWhile p = l := by
  cases l with
  | nil => rfl
  | cons c cs =>
    rw [List.dropWhile_cons, if_neg (by simp [h c (List.mem_cons_self c cs)])]

theorem pyStrip_id (l : List Char) (h : ∀ c ∈ l, isLowerAZ c = true) :
    pyStrip l = l := by
  unfold pyStrip
  rw [dropWhile_id_of_head l
      (fun c hc => isPySpace_false_of c (isLowerAZ_letterOrTick c (h c hc))),
    dropWhile_id_of_head l.reverse
      (fun c hc => isPySpace_false_of c
        (isLowerAZ_letterOrTick c (h c (List.mem_reverse.mp hc)))),
    List.reverse_reverse]

/-- C9 witness: a concrete sequence exercising all four operations from the
empty store. -/
theorem C9_witness :
    RefIntegrity emptyDb ∧
    RefIntegrity ([Op.saveMsg "u1" 4 exMsg, Op.createConv "u2" 5 (some "Y") "t",
        Op.saveConv (fun _ => "u3") exConvModel,
        Op.deleteConv "X"].foldl stepOp emptyDb) :=
  ⟨by unfold RefIntegrity; decide,
   C9_referential_integrity
     [Op.saveMsg "u1" 4 exMsg, Op.createConv "u2" 5 (some "Y") "t",
      Op.saveConv (fun _ => "u3") exConvModel, Op.deleteConv "X"]
     emptyDb (by unfold RefIntegrity; decide)⟩

/-! ### C2 — per-matcher failure lemmas on markup-free characters -/

theorem subHeading_fail (b : Bool) (c : Char) (cs : List Char)
    (h : letterOrTick c = true) : subHeading b (c :: cs) = none := by
  unfold subHeading
  cases b with
  | false => rfl
  | true =>
    rw [if_pos rfl]
    have htw : (c :: cs).takeWhile (fun x => x == '#') = [] := by
      rw [List.takeWhile_cons]
      simp [letterOrTick_ne c h '#' (by decide)]
    simp [htw]

theorem subWrap1_fail (d : Char) (hd : letterOrTick d = false) (b : Bool) (c : Char)
    (cs : List Char) (h : letterOrTick c = true) : subWrap1 d b (c :: cs) = none := by
  unfold subWrap1
  rw [if_neg (by simp [letterOrTick_ne' c h d hd])]

theorem subWrap2_fail (d : Char) (hd : letterOrTick d = false) (b : Bool) (c : Char)
    (cs : List Char) (h : letterOrTick c = true) : subWrap2 d b (c :: cs) = none := by
  unfold subWrap2
  rw [if_neg (by simp [letterOrTick_ne' c h d hd])]

theorem subLink_fail (b : Bool) (c : Char) (cs : List Char)
    (h : letterOrTick c = true) : subLink b (c :: cs) = none := by
  unfold subLink
  rw [if_neg (by simp [letterOrTick_ne' c h '[' (by decide)])]

theorem subAutolink_fail (b : Bool) (c : Char) (cs : List Char)
    (h : letterOrTick c = true) : subAutolink b (c :: cs) = none := by
  unfold subAutolink
  rw [if_neg (by simp [letterOrTick_ne' c h '<' (by decide)])]

theorem subImage_fail (b : Bool) (c : Char) (cs : List Char)
    (h : letterOrTick c = true) : subImage b (c :: cs) = none := by
  unfold subImage
  rw [if_neg (by simp [letterOrTick_ne' c h '!' (by decide)])]

theorem subFence_fail_letter (b : Bool) (c : Char) (cs : List Char)
    (h : isLowerAZ c = true) : subFence b (c :: cs) = none := by
  unfold subFence
  rw [if_neg (by simp [beq_eq_false_iff_ne.mp (isLowerAZ_ne c h btick (by decide))])]

theorem subHr_fail (d : Char) (hd : isLowerAZ d = false) (b : Bool) (c : Char)
    (cs : List Char) (h : isLowerAZ c = true) : subHr d b (c :: cs) = none := by
  unfold subHr
  cases b with
  | false => rfl
  | true =>
    rw [if_pos rfl]
    have htw : (c :: cs).takeWhile (fun x => x == d) = [] := by
      rw [List.takeWhile_cons]
      simp [isLowerAZ_ne c h d hd]
    simp [htw]

theorem subBlockquote_fail (b : Bool) (c : Char) (cs : List Char)
    (h : isLowerAZ c = true) : subBlockquote b (c :: cs) = none := by
  unfold subBlockquote
  rw [if_neg ?_]
  intro hcond
  have := hcond.2
  simp [beq_eq_false_iff_ne.mp (isLowerAZ_ne c h '>' (by decide))] at this

theorem subUList_fail (b : Bool) (c : Char) (cs : List Char)
    (h : isLowerAZ c = true) : subUList b (c :: cs) = none := by
  unfold subUList
  cases b with
  | false => rfl
  | true =>
    rw [if_pos rfl]
    have htw : (c :: cs).takeWhile isPySpace = [] := by
      rw [List.takeWhile_cons]
      simp [isPySpace_false_of c (isLowerAZ_letterOrTick c h)]
    simp only [htw, List.length_nil, List.drop_zero]
    have hne1 : c ≠ '-' := beq_eq_false_iff_ne.mp (isLowerAZ_ne c h '-' (by decide))
    have hne2 : c ≠ '*' := beq_eq_false_iff_ne.mp (isLowerAZ_ne c h '*' (by decide))
    have hne3 : c ≠ '+' := beq_eq_false_iff_ne.mp (isLowerAZ_ne c h '+' (by decide))
    have hno : ¬((c :: cs).take 1 = ['-'] ∨ (c :: cs).take 1 = ['*'] ∨
        (c :: cs).take 1 = ['+']) := by
      rintro (h' | h' | h')
      · exact hne1 (by simpa using h')
      · exact hne2 (by simpa using h')
      · exact hne3 (by simpa using h')
    rw [if_neg hno]

theorem subOList_fail (b : Bool) (c : Char) (cs : List Char)
    (h : isLowerAZ c = true) : subOList b (c :: cs) = none := by
  unfold subOList
  cases b with
  | false => rfl
  | true =>
    rw [if_pos rfl]
    have htw : (c :: cs).takeWhile isPySpace = [] := by
      rw [List.takeWhile_cons]
      simp [isPySpace_false_of c (isLowerAZ_letterOrTick c h)]
    have htd : (c :: cs).takeWhile isAsciiDigit = [] := by
      rw [List.takeWhile_cons]
      simp [isAsciiDigit_false_of_letter c h]
    simp [htw, htd]

theorem subBlankLines_fail (b : Bool) (c : Char) (cs : List Char)
    (h : isLowerAZ c = true) : subBlankLines b (c :: cs) = none := by
  unfold subBlankLines
  rw [if_neg (by simp [beq_eq_false_iff_ne.mp (isLowerAZ_ne c h '\n' (by decide))])]

theorem subWsCollapse_fail (b : Bool) (c : Char) (cs : List Char)
    (h : isLowerAZ c = true) : subWsCollapse b (c :: cs) = none := by
  unfold subWsCollapse
  have htw : (c :: cs).takeWhile isPySpace = [] := by
    rw [List.takeWhile_cons]
    simp [isPySpace_false_of c (isLowerAZ_letterOrTick c h)]
  simp [htw]

/-! ### C2 — behaviour of the fenced-code and inline-code passes -/

theorem nonTick_of_letters (s : List Char) (hs : ∀ c ∈ s, isLowerAZ c = true) :
    ∀ c ∈ s, (c != btick) = true := fun c hc =>
  bne_iff_ne.mpr (beq_eq_false_iff_ne.mp (isLowerAZ_ne c (hs c hc) btick (by decide)))

theorem subFence_full (s : List Char) (b : Bool)
    (hs : ∀ c ∈ s, isLowerAZ c = true) :
    subFence b (btick :: btick :: btick :: (s ++ [btick, btick, btick])) =
      some ([], [], false) := by
  have hcontent : (s ++ [btick, btick, btick]).takeWhile (fun x => x != btick) = s :=
    takeWhile_append_of_all s _ (nonTick_of_letters s hs) (by simp)
  unfold subFence
  rw [if_pos (by simp)]
  simp [hcontent, List.drop_left]

theorem fence_stage (s : List Char) (hs : ∀ c ∈ s, isLowerAZ c = true) :
    runSub subFence (btick :: btick :: btick :: (s ++ [btick, btick, btick])) = [] := by
  unfold runSub
  rw [show (btick :: btick :: btick :: (s ++ [btick, btick, btick])).length
      = (s.length + 5) + 1 from by
        simp only [List.length_cons, List.length_append, List.length_nil]]
  rw [applySubFuel_cons, subFence_full s true hs]
  simp [applySubFuel_nil]

theorem fence_tail_id : ∀ (n : Nat) (b : Bool) (t : List Char),
    (∀ c ∈ t, isLowerAZ c = true) →
    applySubFuel subFence n b (t ++ [btick]) = t ++ [btick] := by
  intro n
  induction n with
  | zero => intro b t _; exact applySubFuel_zero _ _ _
  | succ k ih =>
    intro b t ht
    cases t with
    | nil =>
      simp only [List.nil_append]
      rw [applySubFuel_cons]
      have hm : subFence b [btick] = none := by
        unfold subFence
        rw [if_neg (by decide)]
      rw [hm]
      simp [applySubFuel_nil]
    | cons a t' =>
      have ha := ht a (List.mem_cons_self a t')
      rw [List.cons_append, applySubFuel_cons, subFence_fail_letter b a _ ha]
      exact congrArg (a :: ·)
        (ih (a == '\n') t' (fun c hc => ht c (List.mem_cons_of_mem a hc)))

theorem fence_stage_id (s : List Char) (h1 : s ≠ [])
    (hs : ∀ c ∈ s, isLowerAZ c = true) :
    runSub subFence (btick :: (s ++ [btick])) = btick :: (s ++ [btick]) := by
  obtain ⟨a, s', rfl⟩ := List.exists_cons_of_ne_nil h1
  have hane : a ≠ btick := beq_eq_false_iff_ne.mp
    (isLowerAZ_ne a (hs a (List.mem_cons_self a s')) btick (by decide))
  unfold runSub
  rw [List.length_cons, applySubFuel_cons]
  have hm : subFence true (btick :: ((a :: s') ++ [btick])) = none := by
    unfold subFence
    rw [if_neg ?_]
    intro hcond
    rw [List.cons_append] at hcond
    simp only [List.take_succ_cons, List.cons.injEq] at hcond
    exact hane hcond.2.1
  rw [hm]
  exact congrArg (btick :: ·) (fence_tail_id _ _ (a :: s') hs)

theorem subInlineCode_full (s : List Char) (b : Bool) (h1 : s ≠ [])
    (hs : ∀ c ∈ s, isLowerAZ c = true) :
    subInlineCode b (btick :: (s ++ [btick])) = some (s, [], false) := by
  have hcontent : (s ++ [btick]).takeWhile (fun x => x != btick) = s :=
    takeWhile_append_of_all s _ (nonTick_of_letters s hs) (by simp)
  unfold subInlineCode
  rw [if_pos (by simp)]
  simp [hcontent, List.drop_left, h1]

theorem inline_stage (s : List Char) (h1 : s ≠ [])
    (hs : ∀ c ∈ s, isLowerAZ c = true) :
    runSub subInlineCode (btick :: (s ++ [btick])) = s := by
  unfold runSub
  rw [List.length_cons, applySubFuel_cons, subInlineCode_full s true h1 hs]
  simp [applySubFuel_nil]

/-- C2 counterexample: on the markdown input made of one fenced code block
holding the text "code", the normalizer returns the empty string — the
content of the fenced block does NOT appear in the output (the whole block,
delimiters and content, is deleted). -/
theorem C2_counterexample :
    clean_markdown_to_plain "```code```" = "" ∧
    ¬ ("code".data <:+: (clean_markdown_to_plain "```code```").data) := by
  constructor
  · decide
  · decide

/-- C2 as amended: for markup-free content (non-empty, lowercase letters), a
fenced code block is removed entirely — delimiters AND content — while
inline-code backquotes are dropped keeping the inner text. -/
theorem C2_amended (s : List Char) (h1 : s ≠ [])
    (h2 : ∀ c ∈ s, isLowerAZ c = true) :
    cleanMarkdownList (btick :: btick :: btick :: (s ++ [btick, btick, btick])) = [] ∧
    cleanMarkdownList (btick :: (s ++ [btick])) = s := by
  have hlot1 : ∀ c ∈ (btick :: btick :: btick :: (s ++ [btick, btick, btick])),
      letterOrTick c = true := by
    intro c hc
    rcases List.mem_cons.mp hc with rfl | hc
    · decide
    rcases List.mem_cons.mp hc with rfl | hc
    · decide
    rcases List.mem_cons.mp hc with rfl | hc
    · decide
    rcases List.mem_append.mp hc with hc | hc
    · exact isLowerAZ_letterOrTick c (h2 c hc)
    · have hce : c = btick := by simpa using hc
      rw [hce]
      decide
  have hlot2 : ∀ c ∈ (btick :: (s ++ [btick])), letterOrTick c = true := by
    intro c hc
    rcases List.mem_cons.mp hc with rfl | hc
    · decide
    rcases List.mem_append.mp hc with hc | hc
    · exact isLowerAZ_letterOrTick c (h2 c hc)
    · have hce : c = btick := by simpa using hc
      rw [hce]
      decide
  constructor
  · simp only [cleanMarkdownList]
    rw [runSub_id subHeading letterOrTick subHeading_fail _ hlot1,
      runSub_id (subWrap2 '*') letterOrTick (subWrap2_fail '*' (by decide)) _ hlot1,
      runSub_id (subWrap1 '*') letterOrTick (subWrap1_fail '*' (by decide)) _ hlot1,
      runSub_id (subWrap2 '_') letterOrTick (subWrap2_fail '_' (by decide)) _ hlot1,
      runSub_id (subWrap1 '_') letterOrTick (subWrap1_fail '_' (by decide)) _ hlot1,
      runSub_id subLink letterOrTick subLink_fail _ hlot1,
      runSub_id subAutolink letterOrTick subAutolink_fail _ hlot1,
      runSub_id subImage letterOrTick subImage_fail _ hlot1,
      fence_stage s h2, runSub_nil, runSub_nil, runSub_nil, runSub_nil,
      runSub_nil, runSub_nil, runSub_nil, runSub_nil]
    rfl
  · simp only [cleanMarkdownList]
    rw [runSub_id subHeading letterOrTick subHeading_fail _ hlot2,
      runSub_id (subWrap2 '*') letterOrTick (subWrap2_fail '*' (by decide)) _ hlot2,
      runSub_id (subWrap1 '*') letterOrTick (subWrap1_fail '*' (by decide)) _ hlot2,
      runSub_id (subWrap2 '_') letterOrTick (subWrap2_fail '_' (by decide)) _ hlot2,
      runSub_id (subWrap1 '_') letterOrTick (subWrap1_fail '_' (by decide)) _ hlot2,
      runSub_id subLink letterOrTick subLink_fail _ hlot2,
      runSub_id subAutolink letterOrTick subAutolink_fail _ hlot2,
      runSub_id subImage letterOrTick subImage_fail _ hlot2,
      fence_stage_id s h1 h2, inline_stage s h1 h2,
      runSub_id (subHr '-') isLowerAZ (subHr_fail '-' (by decide)) _ h2,
      runSub_id (subHr '*') isLowerAZ (subHr_fail '*' (by decide)) _ h2,
      runSub_id subBlockquote isLowerAZ subBlockquote_fail _ h2,
      runSub_id subUList isLowerAZ subUList_fail _ h2,
      runSub_id subOList isLowerAZ subOList_fail _ h2,
      runSub_id subBlankLines isLowerAZ subBlankLines_fail _ h2,
      runSub_id subWsCollapse isLowerAZ subWsCollapse_fail _ h2]
    exact pyStrip_id s h2

/-- C2 amended witness: the content "code". -/
theorem C2_amended_witness :
    "code".data ≠ [] ∧
    cleanMarkdownList (btick :: btick :: btick ::
      ("code".data ++ [btick, btick, btick])) = [] ∧
    cleanMarkdownList (btick :: ("code".data ++ [btick])) = "code".data :=
  ⟨by decide, (C2_amended "code".data (by decide) (by decide)).1,
    (C2_amended "code".data (by decide) (by decide)).2⟩

end Archie
